/-
Verification of the stylesheet registry in src/src/common/stylesheet.rs.

The Rust module defines a named style registry (a HashMap from style name
to a resolved console::Style), with incremental registration (add_style),
one-way freezing (freeze), and fallback-safe rendering (println / print).
We embed it shallowly:

  * StyleTransformation, StyleColor, StyleProperties mirror the Rust enums
    and struct verbatim.
  * Style models console::Style from the external console crate (not part
    of this repository): a set of text attributes kept in an ordered set
    (the crate stores them in a BTreeSet keyed by the attribute variant,
    whose order matches the ANSI code order bold=1 < italic=3 <
    underlined=4 < blink=5), plus optional foreground and background ANSI
    color numbers.  apply_to models rendering a message wrapped in ANSI
    escape codes, with a trailing reset when any attribute was applied.
  * The HashMap is modelled as an association list with key-unique insert
    (hmInsert) and lookup (hmGet).
  * A Rust panic is modelled as Except.error carrying the panic message;
    the .unwrap() inside println / print is modelled by returning an
    Option String, none standing for the panic case.
  * NOTE on print: the Rust body of Stylesheet::print (line 241) calls the
    println! macro, exactly like Stylesheet::println (line 209), so the
    embedded print also appends a line terminator.  This is faithful to
    the source even though the source's own doc comment says print does
    not append a newline.
-/
import Mathlib

/-- Transformations that can be applied to texts
(enum StyleTransformation, stylesheet.rs lines 8-14). -/
inductive StyleTransformation where
  | Blink
  | Bold
  | Italic
  | Underlined
deriving DecidableEq, Repr

/-- Colors that can be used for texts and/or their backgrounds
(enum StyleColor, stylesheet.rs lines 17-28). -/
inductive StyleColor where
  | DefaultColor
  | Black
  | White
  | Red
  | Green
  | Blue
  | Cyan
  | Magenta
  | Yellow
deriving DecidableEq, Repr

/-- All properties that form a style
(struct StyleProperties, stylesheet.rs lines 31-48). -/
structure StyleProperties where
  transformation : List StyleTransformation
  color : Option StyleColor
  background : Option StyleColor
deriving DecidableEq, Repr

/-- Ordered duplicate-free insertion into a sorted list: the model of
BTreeSet::insert on attribute ANSI codes. -/
def insertAttr (a : Nat) : List Nat → List Nat
  | [] => [a]
  | b :: rest =>
    if a < b then a :: b :: rest
    else if a = b then b :: rest
    else b :: insertAttr a rest

/-- Model of console::Style (external console crate).  `attrs` is the
BTreeSet of attribute ANSI codes, kept as a sorted duplicate-free list;
`fg` and `bg` are the optional foreground and background ANSI color
numbers (0 = black ... 7 = white). -/
structure Style where
  fg : Option Nat
  bg : Option Nat
  attrs : List Nat
deriving DecidableEq

/-- Model of console::Style::new(): no attributes, no colors. -/
def Style.new : Style := { fg := none, bg := none, attrs := [] }

/-- Model of console::Style::blink(): inserts ANSI attribute 5. -/
def Style.blink (s : Style) : Style := { s with attrs := insertAttr 5 s.attrs }

/-- Model of console::Style::bold(): inserts ANSI attribute 1. -/
def Style.bold (s : Style) : Style := { s with attrs := insertAttr 1 s.attrs }

/-- Model of console::Style::italic(): inserts ANSI attribute 3. -/
def Style.italic (s : Style) : Style := { s with attrs := insertAttr 3 s.attrs }

/-- Model of console::Style::underlined(): inserts ANSI attribute 4. -/
def Style.underlined (s : Style) : Style := { s with attrs := insertAttr 4 s.attrs }

/-- Model of console::Style foreground color setters (black ... yellow):
each sets the foreground to the given ANSI color number, replacing any
previous choice. -/
def Style.setFg (s : Style) (c : Nat) : Style := { s with fg := some c }

/-- Model of console::Style background color setters (on_black ... on_yellow):
each sets the background to the given ANSI color number, replacing any
previous choice. -/
def Style.setBg (s : Style) (c : Nat) : Style := { s with bg := some c }

def Style.black (s : Style) : Style := s.setFg 0
def Style.red (s : Style) : Style := s.setFg 1
def Style.green (s : Style) : Style := s.setFg 2
def Style.yellow (s : Style) : Style := s.setFg 3
def Style.blue (s : Style) : Style := s.setFg 4
def Style.magenta (s : Style) : Style := s.setFg 5
def Style.cyan (s : Style) : Style := s.setFg 6
def Style.white (s : Style) : Style := s.setFg 7

def Style.on_black (s : Style) : Style := s.setBg 0
def Style.on_red (s : Style) : Style := s.setBg 1
def Style.on_green (s : Style) : Style := s.setBg 2
def Style.on_yellow (s : Style) : Style := s.setBg 3
def Style.on_blue (s : Style) : Style := s.setBg 4
def Style.on_magenta (s : Style) : Style := s.setBg 5
def Style.on_cyan (s : Style) : Style := s.setBg 6
def Style.on_white (s : Style) : Style := s.setBg 7

/-- One ANSI escape code, as written by the console crate. -/
def ansiCode (n : Nat) : String := "\x1b[" ++ toString n ++ "m"

/-- Model of console::Style::apply_to followed by Display: emit the escape
codes for the foreground color (30+c), the background color (40+c) and the
attributes in BTreeSet (ascending) order, then the message, then a reset
code when anything was styled.  The default style emits the message
unchanged. -/
def Style.apply_to (s : Style) (msg : String) : String :=
  let codes : List Nat :=
    (match s.fg with
      | some c => [30 + c]
      | none => []) ++
    (match s.bg with
      | some c => [40 + c]
      | none => []) ++
    s.attrs
  if codes.isEmpty then msg
  else String.join (codes.map ansiCode) ++ msg ++ ansiCode 0

/-- Association-list model of HashMap::get on the stylesheet's map. -/
def hmGet : List (String × Style) → String → Option Style
  | [], _ => none
  | p :: rest, k => if k = p.1 then some p.2 else hmGet rest k

/-- Association-list model of HashMap::insert on the stylesheet's map:
replaces the value at an existing key, otherwise appends a new entry. -/
def hmInsert : List (String × Style) → String → Style → List (String × Style)
  | [], k, v => [(k, v)]
  | p :: rest, k, v => if k = p.1 then (k, v) :: rest else p :: hmInsert rest k v

/-- The Stylesheet struct (stylesheet.rs lines 55-58). -/
structure Stylesheet where
  styles : List (String × Style)
  is_frozen : Bool
deriving DecidableEq

/-- The reserved default-style key (stylesheet.rs line 61). -/
def Stylesheet.DEFAULT_STYLE : String := "_default"

/-- Stylesheet::new (stylesheet.rs lines 67-75): the map holds only the
default style, and the sheet starts unfrozen. -/
def Stylesheet.new : Stylesheet :=
  { styles := [(Stylesheet.DEFAULT_STYLE, Style.new)], is_frozen := false }

/-- Stylesheet::contains (stylesheet.rs lines 82-84). -/
def Stylesheet.contains (self : Stylesheet) (style_name : String) : Bool :=
  (hmGet self.styles style_name).isSome

/-- One iteration of the transformation loop in add_style
(stylesheet.rs lines 118-125). -/
def applyTransformationStep (style : Style) (s : StyleTransformation) : Style :=
  match s with
  | StyleTransformation.Blink => style.blink
  | StyleTransformation.Bold => style.bold
  | StyleTransformation.Italic => style.italic
  | StyleTransformation.Underlined => style.underlined

/-- The foreground-color block of add_style (stylesheet.rs lines 127-140):
a None color or the explicit DefaultColor change nothing. -/
def applyColorChoice (style : Style) (c : Option StyleColor) : Style :=
  match c with
  | none => style
  | some StyleColor.DefaultColor => style
  | some StyleColor.Black => style.black
  | some StyleColor.White => style.white
  | some StyleColor.Red => style.red
  | some StyleColor.Green => style.green
  | some StyleColor.Blue => style.blue
  | some StyleColor.Cyan => style.cyan
  | some StyleColor.Magenta => style.magenta
  | some StyleColor.Yellow => style.yellow

/-- The background-color block of add_style (stylesheet.rs lines 142-155). -/
def applyBackgroundChoice (style : Style) (c : Option StyleColor) : Style :=
  match c with
  | none => style
  | some StyleColor.DefaultColor => style
  | some StyleColor.Black => style.on_black
  | some StyleColor.White => style.on_white
  | some StyleColor.Red => style.on_red
  | some StyleColor.Green => style.on_green
  | some StyleColor.Blue => style.on_blue
  | some StyleColor.Cyan => style.on_cyan
  | some StyleColor.Magenta => style.on_magenta
  | some StyleColor.Yellow => style.on_yellow

/-- The style-resolution body of add_style (stylesheet.rs lines 113-156):
start from Style::new, fold the transformation loop, then apply the
foreground-color block, then the background-color block. -/
def resolveStyle (style_definition : StyleProperties) : Style :=
  applyBackgroundChoice
    (applyColorChoice
      (style_definition.transformation.foldl applyTransformationStep Style.new)
      style_definition.color)
    style_definition.background

/-- Stylesheet::add_style (stylesheet.rs lines 104-159).  The panic on a
frozen sheet (line 110) is modelled as Except.error carrying the panic
message; the success path inserts the resolved style under the name. -/
def Stylesheet.add_style (self : Stylesheet) (style_name : String)
    (style_definition : StyleProperties) : Except String Stylesheet :=
  if self.is_frozen then
    Except.error ("FATAL: Trying to add a style to a frozen Stylesheet")
  else
    Except.ok
      { self with styles := hmInsert self.styles style_name (resolveStyle style_definition) }

/-- Stylesheet::freeze (stylesheet.rs lines 176-178). -/
def Stylesheet.freeze (self : Stylesheet) : Stylesheet :=
  { self with is_frozen := true }

/-- Stylesheet::println (stylesheet.rs lines 199-210): fall back to the
default key when the requested name is absent, then get-and-unwrap (none
models the unwrap panic) and emit the styled message through the println!
macro, which appends a line terminator. -/
def Stylesheet.println (self : Stylesheet) (style_name : String)
    (message : String) : Option String :=
  let style_name :=
    if !(self.contains style_name) then Stylesheet.DEFAULT_STYLE else style_name
  match hmGet self.styles style_name with
  | some style => some (style.apply_to message ++ "\n")
  | none => none

/-- Stylesheet::print (stylesheet.rs lines 231-242).  The source body is
identical to println's: line 241 also uses the println! macro, so a line
terminator is appended here too (contrary to the function's own doc
comment at line 212). -/
def Stylesheet.print (self : Stylesheet) (style_name : String)
    (message : String) : Option String :=
  let style_name :=
    if !(self.contains style_name) then Stylesheet.DEFAULT_STYLE else style_name
  match hmGet self.styles style_name with
  | some style => some (style.apply_to message ++ "\n")
  | none => none

/-- Sheets reachable from Stylesheet::new through the public API: a
successful add_style step or a freeze step. -/
inductive Reachable : Stylesheet → Prop where
  | new : Reachable Stylesheet.new
  | add {s s' : Stylesheet} {n : String} {d : StyleProperties} :
      Reachable s → s.add_style n d = Except.ok s' → Reachable s'
  | freeze {s : Stylesheet} : Reachable s → Reachable s.freeze

/-- Sheets reachable from Stylesheet::new without any add_style call that
uses the reserved default-style key. -/
inductive ReachablePreserving : Stylesheet → Prop where
  | new : ReachablePreserving Stylesheet.new
  | add {s s' : Stylesheet} {n : String} {d : StyleProperties} :
      ReachablePreserving s → n ≠ Stylesheet.DEFAULT_STYLE →
      s.add_style n d = Except.ok s' → ReachablePreserving s'
  | freeze {s : Stylesheet} : ReachablePreserving s → ReachablePreserving s.freeze

/-- A definition that only sets Bold, used for concrete instances. -/
def boldDef : StyleProperties :=
  { transformation := [StyleTransformation.Bold], color := none, background := none }

/-- A definition with transformations [Bold, Underlined]. -/
def boldUnderlinedDef : StyleProperties :=
  { transformation := [StyleTransformation.Bold, StyleTransformation.Underlined],
    color := none, background := none }

/-- The same definition with the transformations in the other order. -/
def underlinedBoldDef : StyleProperties :=
  { transformation := [StyleTransformation.Underlined, StyleTransformation.Bold],
    color := none, background := none }

/-- The sheet obtained from Stylesheet::new by registering boldDef under
the reserved default-style key. -/
def overwrittenDefaultSheet : Stylesheet :=
  { styles := hmInsert Stylesheet.new.styles Stylesheet.DEFAULT_STYLE (resolveStyle boldDef),
    is_frozen := false }

/-- The sheet obtained from Stylesheet::new by registering boldDef under
a non-reserved name. -/
def nonReservedSheet : Stylesheet :=
  { styles := hmInsert Stylesheet.new.styles ("x") (resolveStyle boldDef),
    is_frozen := false }

/-- Ordered insertion commutes for keys in strictly increasing order. -/
theorem insertAttr_comm_of_lt {a b : Nat} (hab : a < b) :
    ∀ l : List Nat, insertAttr a (insertAttr b l) = insertAttr b (insertAttr a l) := by
  have hnb : ¬ b < a := Nat.lt_asymm hab
  have hne : ¬ a = b := Nat.ne_of_lt hab
  have hne' : ¬ b = a := Ne.symm (Nat.ne_of_lt hab)
  intro l
  induction l with
  | nil => simp [insertAttr, hab, hnb, hne, hne']
  | cons c rest ih =>
    rcases lt_trichotomy b c with hbc | hbc | hbc
    · have hac : a < c := hab.trans hbc
      simp [insertAttr, hab, hbc, hac, hnb, hne']
    · subst hbc
      simp [insertAttr, hab, hnb, hne', lt_irrefl]
    · rcases lt_trichotomy a c with hac | hac | hac
      · simp [insertAttr, hac, hab, Nat.lt_asymm hbc, Ne.symm (Nat.ne_of_lt hbc), hnb, hne']
      · subst hac
        simp [insertAttr, lt_irrefl, hnb, hne']
      · simp [insertAttr, Nat.lt_asymm hac, Ne.symm (Nat.ne_of_lt hac),
          Nat.lt_asymm hbc, Ne.symm (Nat.ne_of_lt hbc), ih]

/-- Ordered insertion commutes: the insertion order of two attribute
codes does not matter. -/
theorem insertAttr_comm (a b : Nat) (l : List Nat) :
    insertAttr a (insertAttr b l) = insertAttr b (insertAttr a l) := by
  rcases lt_trichotomy a b with h | h | h
  · exact insertAttr_comm_of_lt h l
  · subst h
    rfl
  · exact (insertAttr_comm_of_lt h l).symm

/-- Inserting under key k leaves every other key's entry unchanged and
stores v under k. -/
theorem hmGet_hmInsert (m : List (String × Style)) (k k' : String) (v : Style) :
    hmGet (hmInsert m k v) k' = if k' = k then some v else hmGet m k' := by
  induction m with
  | nil =>
    by_cases h : k' = k <;> simp [hmInsert, hmGet, h]
  | cons p rest ih =>
    by_cases h1 : k = p.1
    · by_cases h2 : k' = k
      · simp [hmInsert, hmGet, h1, h2]
      · have h3 : ¬ k' = p.1 := fun hq => h2 (hq.trans h1.symm)
        simp [hmInsert, hmGet, h1, h2, h3]
    · by_cases h2 : k' = p.1
      · have h3 : ¬ k' = k := fun hq => h1 (hq.symm.trans h2)
        have h4 : ¬ p.1 = k := fun hq => h1 hq.symm
        simp [hmInsert, hmGet, h1, h2, h3, h4]
      · simp [hmInsert, hmGet, h1, h2, ih]

/-- Two inserts under the same key collapse to the second one. -/
theorem hmInsert_hmInsert (m : List (String × Style)) (k : String) (v1 v2 : Style) :
    hmInsert (hmInsert m k v1) k v2 = hmInsert m k v2 := by
  induction m with
  | nil => simp [hmInsert]
  | cons p rest ih =>
    by_cases h : k = p.1 <;> simp [hmInsert, h, ih]

/-- A left fold with a right-commutative step is invariant under
permutation of the list. -/
theorem foldl_congr_of_perm {α β : Type} (f : β → α → β)
    (comm : ∀ (b : β) (a a' : α), f (f b a) a' = f (f b a') a) :
    ∀ {l₁ l₂ : List α}, l₁.Perm l₂ → ∀ init : β, l₁.foldl f init = l₂.foldl f init := by
  intro l₁ l₂ h
  induction h with
  | nil => intro init; rfl
  | cons x h ih => intro init; simpa using ih (f init x)
  | swap x y l => intro init; simp only [List.foldl_cons]; rw [comm]
  | trans h1 h2 ih1 ih2 => intro init; exact (ih1 init).trans (ih2 init)

/-- The transformation loop's step is right-commutative: each iteration
only inserts one attribute code into the attribute set. -/
theorem applyTransformationStep_comm (b : Style) (a a' : StyleTransformation) :
    applyTransformationStep (applyTransformationStep b a) a' =
      applyTransformationStep (applyTransformationStep b a') a := by
  cases a <;> cases a' <;>
    simp [applyTransformationStep, Style.blink, Style.bold, Style.italic,
      Style.underlined, insertAttr_comm]

/-- Style resolution does not depend on the order of the transformation
sequence, given equal color choices. -/
theorem resolveStyle_congr_of_perm (d1 d2 : StyleProperties)
    (hp : d1.transformation.Perm d2.transformation)
    (hc : d1.color = d2.color) (hb : d1.background = d2.background) :
    resolveStyle d1 = resolveStyle d2 := by
  unfold resolveStyle
  rw [foldl_congr_of_perm applyTransformationStep applyTransformationStep_comm hp, hc, hb]

/-- Successful add_style steps are exactly the non-frozen ones, and they
only replace the styles map. -/
theorem add_style_ok_iff (s s' : Stylesheet) (n : String) (d : StyleProperties) :
    s.add_style n d = Except.ok s' ↔
      s.is_frozen = false ∧
        s' = { s with styles := hmInsert s.styles n (resolveStyle d) } := by
  constructor
  · intro h
    by_cases hf : s.is_frozen
    · simp [Stylesheet.add_style, hf] at h
    · simp only [Bool.not_eq_true] at hf
      simp [Stylesheet.add_style, hf] at h
      refine ⟨hf, ?_⟩
      rw [← h]
      simp [hf]
  · intro ⟨hf, hs⟩
    simp [Stylesheet.add_style, hf, hs]

/-- Every reachable sheet still holds an entry under the reserved
default-style key. -/
theorem reachable_default_isSome (s : Stylesheet) (h : Reachable s) :
    (hmGet s.styles Stylesheet.DEFAULT_STYLE).isSome = true := by
  induction h with
  | new => simp [Stylesheet.new, hmGet]
  | @add s1 s2 n d hr hok ih =>
    rw [add_style_ok_iff] at hok
    obtain ⟨hf, hs⟩ := hok
    subst hs
    simp only [hmGet_hmInsert]
    by_cases hk : Stylesheet.DEFAULT_STYLE = n <;> simp [hk, ih]
  | freeze hr ih => exact ih

/-- On a sheet whose map holds st under n, println emits the styled
message with a trailing line terminator. -/
theorem println_of_get (s : Stylesheet) (n : String) (st : Style) (m : String)
    (h : hmGet s.styles n = some st) :
    s.println n m = some (st.apply_to m ++ "\n") := by
  have hc : s.contains n = true := by simp [Stylesheet.contains, h]
  simp [Stylesheet.println, hc, h]

/-- On a sheet whose map holds st under n, print emits the styled message,
also with a trailing line terminator (the source body uses println!). -/
theorem print_of_get (s : Stylesheet) (n : String) (st : Style) (m : String)
    (h : hmGet s.styles n = some st) :
    s.print n m = some (st.apply_to m ++ "\n") := by
  have hc : s.contains n = true := by simp [Stylesheet.contains, h]
  simp [Stylesheet.print, hc, h]

/-- On every reachable sheet, println returns a value (the unwrap cannot
fail). -/
theorem println_isSome_of_reachable (s : Stylesheet) (h : Reachable s)
    (n m : String) : (s.println n m).isSome = true := by
  have hd := reachable_default_isSome s h
  by_cases hc : s.contains n = true
  · obtain ⟨st, hst⟩ := Option.isSome_iff_exists.mp (by simpa [Stylesheet.contains] using hc)
    simp [Stylesheet.println, hc, hst]
  · obtain ⟨st, hst⟩ := Option.isSome_iff_exists.mp hd
    simp only [Bool.not_eq_true] at hc
    simp [Stylesheet.println, hc, hst]

/-- On every reachable sheet, print returns a value. -/
theorem print_isSome_of_reachable (s : Stylesheet) (h : Reachable s)
    (n m : String) : (s.print n m).isSome = true := by
  have hd := reachable_default_isSome s h
  by_cases hc : s.contains n = true
  · obtain ⟨st, hst⟩ := Option.isSome_iff_exists.mp (by simpa [Stylesheet.contains] using hc)
    simp [Stylesheet.print, hc, hst]
  · obtain ⟨st, hst⟩ := Option.isSome_iff_exists.mp hd
    simp only [Bool.not_eq_true] at hc
    simp [Stylesheet.print, hc, hst]

/-- Claim C1: the spec says println appends a trailing line terminator
while print emits the styled message with no trailing one.  The source
contradicts this (and its own doc comment): print's body also goes
through the println! macro, so it appends a line terminator too.  This
theorem evaluates the code at a failing input (the default style on
message hi yields hi followed by a newline from print) and shows the two
variants are one and the same function. -/
theorem print_appends_line_terminator :
    Stylesheet.new.print Stylesheet.DEFAULT_STYLE ("hi") = some ("hi" ++ "\n") ∧
    ∀ (s : Stylesheet) (n m : String), s.print n m = s.println n m := by
  constructor
  · decide
  · intro s n m
    rfl

/-- Claim C2: on a frozen sheet, add_style always produces the fatal
misuse failure (the panic, modelled as Except.error with the source's
panic message) and never yields a successor state, so the styles mapping
is left exactly as it was. -/
theorem add_style_on_frozen_is_fatal (s : Stylesheet) (n : String)
    (d : StyleProperties) (h : s.is_frozen = true) :
    s.add_style n d = Except.error ("FATAL: Trying to add a style to a frozen Stylesheet") ∧
    ∀ s', ¬ (s.add_style n d = Except.ok s') := by
  refine ⟨by simp [Stylesheet.add_style, h], ?_⟩
  intro s' hc
  rw [add_style_ok_iff] at hc
  rw [h] at hc
  exact absurd hc.1 (by simp)

/-- Witness for C2 at a concrete frozen sheet. -/
theorem add_style_on_frozen_is_fatal_witness :
    Stylesheet.new.freeze.add_style ("x") boldDef =
      Except.error ("FATAL: Trying to add a style to a frozen Stylesheet") :=
  (add_style_on_frozen_is_fatal Stylesheet.new.freeze ("x") boldDef rfl).1

/-- Claim C3: rendering under a name absent from the mapping produces
exactly the output of rendering under the reserved default-style key, for
both variants; and on any sheet reachable through the API the lookup
never fails. -/
theorem render_unknown_name_falls_back_to_default (s : Stylesheet) (n m : String)
    (h : hmGet s.styles n = none) :
    s.println n m = s.println Stylesheet.DEFAULT_STYLE m ∧
    s.print n m = s.print Stylesheet.DEFAULT_STYLE m ∧
    (Reachable s → (s.println n m).isSome = true ∧ (s.print n m).isSome = true) := by
  have hc : s.contains n = false := by simp [Stylesheet.contains, h]
  refine ⟨?_, ?_, fun hr =>
    ⟨println_isSome_of_reachable s hr n m, print_isSome_of_reachable s hr n m⟩⟩
  · simp [Stylesheet.println, hc]
  · simp [Stylesheet.print, hc]

/-- Witness for C3 on the fresh sheet with an unregistered name. -/
theorem render_unknown_name_falls_back_to_default_witness :
    Stylesheet.new.println ("missing") ("hi") =
      Stylesheet.new.println Stylesheet.DEFAULT_STYLE ("hi") :=
  (render_unknown_name_falls_back_to_default Stylesheet.new ("missing") ("hi")
    (by decide)).1

/-- Claim C4: on every sheet reachable from new() by any sequence of
operations, both rendering variants succeed for every name and message:
the lookup-then-unwrap never hits the none case, so no panic is
possible. -/
theorem render_never_panics (s : Stylesheet) (h : Reachable s) (n m : String) :
    (s.println n m).isSome = true ∧ (s.print n m).isSome = true :=
  ⟨println_isSome_of_reachable s h n m, print_isSome_of_reachable s h n m⟩

/-- Witness for C4 on the fresh sheet. -/
theorem render_never_panics_witness :
    (Stylesheet.new.println ("nope") ("msg")).isSome = true :=
  (render_never_panics Stylesheet.new Reachable.new ("nope") ("msg")).1

/-- Claim C5: new() returns a sheet whose mapping is exactly the one
entry keyed by the reserved default-style key, and every reachable sheet
still holds an entry under that key. -/
theorem default_entry_present_invariant :
    Stylesheet.new.styles = [(Stylesheet.DEFAULT_STYLE, Style.new)] ∧
    ∀ s, Reachable s → (hmGet s.styles Stylesheet.DEFAULT_STYLE).isSome = true :=
  ⟨rfl, fun s h => reachable_default_isSome s h⟩

/-- Witness for C5 on a frozen fresh sheet. -/
theorem default_entry_present_invariant_witness :
    (hmGet Stylesheet.new.freeze.styles Stylesheet.DEFAULT_STYLE).isSome = true :=
  default_entry_present_invariant.2 Stylesheet.new.freeze (Reachable.freeze Reachable.new)

/-- Claim C9: freeze is idempotent: freezing twice gives exactly the
state of freezing once, and rendering is unchanged by the repetition. -/
theorem freeze_idempotent (s : Stylesheet) :
    s.freeze.freeze = s.freeze ∧
    ∀ n m, s.freeze.freeze.println n m = s.freeze.println n m ∧
      s.freeze.freeze.print n m = s.freeze.print n m :=
  ⟨rfl, fun _ _ => ⟨rfl, rfl⟩⟩

/-- Claim C10: freeze touches only the frozen flag: the styles mapping is
unchanged, and rendering under every name and message is unchanged. -/
theorem freeze_only_sets_flag (s : Stylesheet) :
    s.freeze.styles = s.styles ∧ s.freeze.is_frozen = true ∧
    ∀ n m, s.freeze.println n m = s.println n m ∧
      s.freeze.print n m = s.print n m :=
  ⟨rfl, rfl, fun _ _ => ⟨rfl, rfl⟩⟩

/-- Two names bound to the same resolved style render identically under
println. -/
theorem println_congr_of_same_style (t : Stylesheet) (n1 n2 : String) (st : Style)
    (g1 : hmGet t.styles n1 = some st) (g2 : hmGet t.styles n2 = some st)
    (m : String) : t.println n1 m = t.println n2 m := by
  rw [println_of_get t n1 st m g1, println_of_get t n2 st m g2]

/-- Two names bound to the same resolved style render identically under
print. -/
theorem print_congr_of_same_style (t : Stylesheet) (n1 n2 : String) (st : Style)
    (g1 : hmGet t.styles n1 = some st) (g2 : hmGet t.styles n2 = some st)
    (m : String) : t.print n1 m = t.print n2 m := by
  rw [print_of_get t n1 st m g1, print_of_get t n2 st m g2]

/-- Claim C6 counterexample: the reserved default-style key IS
user-choosable.  Starting from new(), calling add_style with the reserved
key and a Bold definition succeeds and replaces the resolved style stored
under the reserved key, so the reached sheet's reserved entry is no
longer the unstyled default built at construction. -/
theorem default_style_replaced_by_add_style :
    Stylesheet.new.add_style Stylesheet.DEFAULT_STYLE boldDef =
      Except.ok overwrittenDefaultSheet ∧
    Reachable overwrittenDefaultSheet ∧
    ¬ (hmGet overwrittenDefaultSheet.styles Stylesheet.DEFAULT_STYLE = some Style.new) :=
  ⟨rfl, Reachable.add Reachable.new rfl, by decide⟩

/-- Claim C6 (amended): the reserved entry is present in every reachable
sheet (see the C5 development) but its stored style can be replaced by an
add_style call that uses the reserved name; in every sheet reachable
without such a call, the reserved entry is still exactly the unstyled
default built at construction. -/
theorem default_entry_unchanged_without_reserved_add (s : Stylesheet)
    (h : ReachablePreserving s) :
    hmGet s.styles Stylesheet.DEFAULT_STYLE = some Style.new := by
  induction h with
  | new => simp [Stylesheet.new, hmGet]
  | @add s1 s2 n d hr hne hok ih =>
    rw [add_style_ok_iff] at hok
    obtain ⟨hf, hs⟩ := hok
    subst hs
    simp [hmGet_hmInsert, Ne.symm hne, ih]
  | freeze hr ih => exact ih

/-- Witness for the amended C6 on a sheet built with one non-reserved
registration. -/
theorem default_entry_unchanged_without_reserved_add_witness :
    hmGet nonReservedSheet.styles Stylesheet.DEFAULT_STYLE = some Style.new :=
  default_entry_unchanged_without_reserved_add nonReservedSheet
    (ReachablePreserving.add ReachablePreserving.new (by decide) rfl)

/-- Claim C7: on a non-frozen sheet, two definitions whose transformation
sequences are permutations of each other and whose colors agree resolve
to identical styles, and after registering them under two names every
message renders identically under the two names, for both variants. -/
theorem transformation_order_irrelevant (s : Stylesheet) (n1 n2 : String)
    (d1 d2 : StyleProperties) (_hf : s.is_frozen = false)
    (hp : d1.transformation.Perm d2.transformation)
    (hc : d1.color = d2.color) (hb : d1.background = d2.background) :
    resolveStyle d1 = resolveStyle d2 ∧
    ∀ s1 s2, s.add_style n1 d1 = Except.ok s1 → s1.add_style n2 d2 = Except.ok s2 →
      ∀ m, s2.println n1 m = s2.println n2 m ∧ s2.print n1 m = s2.print n2 m := by
  have hr := resolveStyle_congr_of_perm d1 d2 hp hc hb
  refine ⟨hr, ?_⟩
  intro s1 s2 h1 h2 m
  rw [add_style_ok_iff] at h1
  obtain ⟨-, hs1⟩ := h1
  subst hs1
  rw [add_style_ok_iff] at h2
  obtain ⟨-, hs2⟩ := h2
  subst hs2
  by_cases hnn : n1 = n2
  · subst hnn
    exact ⟨rfl, rfl⟩
  · constructor
    · refine println_congr_of_same_style _ n1 n2 (resolveStyle d2) ?_ ?_ m
      · simp [hmGet_hmInsert, hnn, hr]
      · simp [hmGet_hmInsert]
    · refine print_congr_of_same_style _ n1 n2 (resolveStyle d2) ?_ ?_ m
      · simp [hmGet_hmInsert, hnn, hr]
      · simp [hmGet_hmInsert]

/-- Witness for C7 with Bold-Underlined against Underlined-Bold on the
fresh sheet. -/
theorem transformation_order_irrelevant_witness :
    resolveStyle boldUnderlinedDef = resolveStyle underlinedBoldDef :=
  (transformation_order_irrelevant Stylesheet.new ("a") ("b")
    boldUnderlinedDef underlinedBoldDef rfl
    (List.Perm.swap StyleTransformation.Underlined StyleTransformation.Bold [])
    rfl rfl).1

/-- Claim C8: on a non-frozen sheet, re-registering a name replaces its
stored resolved style without error: two add_style calls under the same
name equal the second call alone, and rendering under the name reflects
only the second definition. -/
theorem add_style_overwrites_existing (s : Stylesheet) (n : String)
    (d1 d2 : StyleProperties) (hf : s.is_frozen = false) :
    Except.bind (s.add_style n d1) (fun s1 => s1.add_style n d2) = s.add_style n d2 ∧
    ∀ s2, s.add_style n d2 = Except.ok s2 →
      hmGet s2.styles n = some (resolveStyle d2) ∧
      ∀ m, s2.println n m = some ((resolveStyle d2).apply_to m ++ "\n") ∧
        s2.print n m = some ((resolveStyle d2).apply_to m ++ "\n") := by
  constructor
  · simp [Stylesheet.add_style, hf, Except.bind, hmInsert_hmInsert]
  · intro s2 h2
    rw [add_style_ok_iff] at h2
    obtain ⟨-, hs⟩ := h2
    subst hs
    have g : hmGet (hmInsert s.styles n (resolveStyle d2)) n = some (resolveStyle d2) := by
      simp [hmGet_hmInsert]
    exact ⟨g, fun m => ⟨println_of_get _ n _ m g, print_of_get _ n _ m g⟩⟩

/-- Witness for C8: registering Bold then Underlined-Bold under x on the
fresh sheet equals registering Underlined-Bold alone. -/
theorem add_style_overwrites_existing_witness :
    Except.bind (Stylesheet.new.add_style ("x") boldDef)
        (fun s1 => s1.add_style ("x") underlinedBoldDef) =
      Stylesheet.new.add_style ("x") underlinedBoldDef :=
  (add_style_overwrites_existing Stylesheet.new ("x") boldDef underlinedBoldDef rfl).1
